import Mathlib

/-!
Verification development for the Company-Brain knowledge retrieval and
answer-generation pipeline.

The definitions below are a shallow embedding of the TypeScript backend:

* `src/backend/src/services/vector-store.ts` — `VectorStoreService`
  (`upsertArticle`, `deleteArticle`, `search`) over a model of the Pinecone
  vector index;
* `src/backend/src/services/gemini.ts` — `GeminiService` (`query`,
  `buildSystemPrompt`, `extractFromDocument`, `generateFollowUpQuestions`)
  and `DocumentParserService.parseFile`;
* `src/backend/src/services/knowledge-manager.ts` — `KnowledgeManager`
  (`processAndSave`, `saveToGCS`) including its scoped temporary file for
  presentation decks;
* `src/backend/src/index.ts` — the `/api/chat` context construction and the
  `/api/knowledge/upload` article construction.

External services (Gemini generation and embedding endpoints, Pinecone, GCS,
the filesystem) are modelled by explicit environment records whose fields give
the outcome of each external call; the embedded functions are deterministic in
those environments.  JavaScript strings are modelled by Lean `String`, with
`substring(0, n)` modelled as taking the first `n` characters, and JSON values
by an inductive `Json` (numbers restricted to integers, which covers every
payload this code base manipulates).
-/

namespace CompanyBrain

/-- Models JavaScript `s.substring(0, n)`: the first `n` characters of `s`. -/
def jsSubstring (s : String) (n : Nat) : String :=
  String.mk (s.toList.take n)

/-- Models JavaScript `Array.prototype.join(sep)` on an array of strings. -/
def joinSep (sep : String) : List String → String
  | [] => ""
  | [x] => x
  | x :: xs => x ++ sep ++ joinSep sep xs

/-- Models `String.prototype.toLowerCase` character-wise. -/
def jsToLower (s : String) : String := String.mk (s.toList.map Char.toLower)

/-- Models `String.prototype.startsWith`. -/
def jsStartsWith (s pre : String) : Bool := pre.toList.isPrefixOf s.toList

/-- A knowledge article as constructed by the backend services
(`types/knowledge.ts` plus the `allowedDepartments` field the services attach).
`Date` fields are carried as millisecond timestamps; `allowedDepartments` is
optional exactly as in the TypeScript objects. -/
structure KnowledgeArticle where
  id : String
  title : String
  content : String
  summary : String
  sourceType : String
  sourceUrl : Option String
  category : String
  tags : List String
  status : String
  authorId : String
  lastUpdatedBy : String
  createdAtMs : Nat
  updatedAtMs : Nat
  viewCount : Nat
  relatedArticleIds : List String
  allowedDepartments : Option (List String)
deriving DecidableEq, Repr

/-- The metadata projection stored with each Pinecone record
(`vector-store.ts`, `upsertArticle`): `sourceUrl` and `allowedDepartments`
are written only when present on the article. -/
structure ArticleMetadata where
  title : String
  summary : String
  category : String
  sourceUrl : Option String
  allowedDepartments : Option (List String)
deriving DecidableEq, Repr

/-- One record of the Pinecone index: id, embedding vector, metadata. -/
structure PineconeEntry where
  id : String
  values : List Int
  metadata : ArticleMetadata
deriving DecidableEq, Repr

/-- Environment for `VectorStoreService`: whether the Pinecone client was
constructed (`PINECONE_API_KEY` set), the embedding endpoint's behaviour,
whether `index.query` itself throws, and the similarity ranking the vector
backend assigns to stored records (by record id). -/
structure VectorEnv where
  available : Bool
  embed : String → Except String (List Int)
  queryFails : Bool
  score : String → Int

/-- Pinecone metadata filter used by `search`: at most one
`allowedDepartments = department` equality constraint.  A record matches a
single-value filter on an array field when the array contains the value;
a record missing the field matches no filter on it. -/
def matchesFilter (filter : Option String) (e : PineconeEntry) : Bool :=
  match filter with
  | none => true
  | some d =>
    match e.metadata.allowedDepartments with
    | some ds => ds.contains d
    | none => false

/-- Insert an entry into a list sorted by descending similarity score. -/
def insertByScore (score : String → Int) (e : PineconeEntry) :
    List PineconeEntry → List PineconeEntry
  | [] => [e]
  | x :: xs =>
    if score x.id ≤ score e.id then e :: x :: xs
    else x :: insertByScore score e xs

/-- Rank entries by descending similarity score (the vector backend's
nearest-neighbour ordering). -/
def rankByScore (score : String → Int) : List PineconeEntry → List PineconeEntry
  | [] => []
  | x :: xs => insertByScore score x (rankByScore score xs)

/-- Models `index.query({vector, topK, filter})`: the filtered records ranked
by descending similarity, truncated to `topK`; errors if the backend throws. -/
def pineconeQuery (env : VectorEnv) (entries : List PineconeEntry)
    (filter : Option String) (topK : Nat) : Except String (List PineconeEntry) :=
  if env.queryFails then Except.error "Pinecone query error"
  else Except.ok ((rankByScore env.score (entries.filter (matchesFilter filter))).take topK)

/-- Models `index.upsert([{id, values, metadata}])`: overwrite by id. -/
def pineconeUpsert (entries : List PineconeEntry) (e : PineconeEntry) :
    List PineconeEntry :=
  e :: entries.filter (fun x => x.id ≠ e.id)

/-- The text embedded for an article (`upsertArticle`): title, summary and the
first 8000 characters of the content. -/
def textToEmbed (a : KnowledgeArticle) : String :=
  "Title: " ++ a.title ++ "\nSummary: " ++ a.summary ++ "\nContent: " ++ jsSubstring a.content 8000

/-- The metadata written for an article by `upsertArticle`. -/
def metadataOf (a : KnowledgeArticle) : ArticleMetadata :=
  { title := a.title
    summary := a.summary
    category := a.category
    sourceUrl := a.sourceUrl
    allowedDepartments := a.allowedDepartments }

/-- Embedding of `VectorStoreService.upsertArticle`: no-op when Pinecone is unavailable;
embedding failure is caught and leaves the index unchanged; otherwise the
record for the article's id is overwritten. -/
def upsertArticle (env : VectorEnv) (index : List PineconeEntry)
    (a : KnowledgeArticle) : List PineconeEntry :=
  if env.available then
    match env.embed (textToEmbed a) with
    | Except.error _ => index
    | Except.ok v => pineconeUpsert index { id := a.id, values := v, metadata := metadataOf a }
  else index

/-- The filter `search` builds: only when a department is supplied, truthy,
and not `admin`. -/
def mkFilter (department : Option String) : Option String :=
  match department with
  | some d => if d ≠ "" ∧ d ≠ "admin" then some d else none
  | none => none

/-- Reconstruction of a `KnowledgeArticle` from a Pinecone match
(`search`, lines 112–133): summary stands in for content, fields missing from
the metadata get the fallbacks of the source (`|| 'Untitled'`, `|| []`, …). -/
def matchToArticle (nowMs : Nat) (m : PineconeEntry) : KnowledgeArticle :=
  { id := m.id
    title := if m.metadata.title = "" then "Untitled" else m.metadata.title
    content := m.metadata.summary
    summary := m.metadata.summary
    sourceUrl := m.metadata.sourceUrl
    category := if m.metadata.category = "" then "technical" else m.metadata.category
    sourceType := "google_drive"
    tags := []
    status := "published"
    authorId := "system"
    lastUpdatedBy := "system"
    createdAtMs := nowMs
    updatedAtMs := nowMs
    viewCount := 0
    relatedArticleIds := []
    allowedDepartments := some (m.metadata.allowedDepartments.getD []) }

/-- Embedding of `VectorStoreService.search`: empty when Pinecone is unavailable; embeds the
query; applies the department filter (skipped for `admin` or no department);
returns up to `limit` reconstructed articles ranked by similarity.  Every
failure of the embedding or vector backend is caught and yields `[]`. -/
def search (env : VectorEnv) (index : List PineconeEntry) (nowMs : Nat)
    (query : String) (department : Option String) (limit : Nat := 5) :
    List KnowledgeArticle :=
  if env.available then
    match env.embed query with
    | Except.error _ => []
    | Except.ok _ =>
      match pineconeQuery env index (mkFilter department) limit with
      | Except.error _ => []
      | Except.ok found => found.map (matchToArticle nowMs)
  else []

/-! ### Durable article store (GCS) and `KnowledgeManager` -/

/-- The durable store: GCS object name to the stored article record. -/
abbrev GCSStore := List (String × KnowledgeArticle)

/-- Models `bucket.file(name).save(contents)`: overwrite by object name. -/
def gcsSave (s : GCSStore) (name : String) (a : KnowledgeArticle) : GCSStore :=
  (name, a) :: s.filter (fun kv => kv.1 ≠ name)

/-- Embedding of `KnowledgeManager.saveToGCS`: writes `id.json`; a GCS failure is caught
and leaves the store unchanged. -/
def saveToGCS (gcsOk : Bool) (s : GCSStore) (a : KnowledgeArticle) : GCSStore :=
  if gcsOk then gcsSave s (a.id ++ ".json") a else s

/-- Outcome of one external parsing library call (pdf-parse, mammoth, xlsx,
officeparser, csv-parse): the extracted text, or a thrown error. -/
inductive ParseOutcome where
  | ok (text : String)
  | err
deriving DecidableEq, Repr

/-- Environment for `KnowledgeManager.processAndSave`'s extraction dispatch:
the outcome of each media-type-specific external parser on the given buffer,
and the buffer's UTF-8 decoding (used for `text/*`). -/
structure DriveParserEnv where
  pdf : ParseOutcome
  mammoth : ParseOutcome
  xlsxText : ParseOutcome
  officeParse : ParseOutcome
  utf8 : String

/-- The four specifically handled MIME types of `processAndSave`. -/
def drivePdfMime : String := "application/pdf"

/-- MIME type of word-processor documents handled by mammoth. -/
def driveDocxMime : String := "application/vnd.openxmlformats-officedocument.wordprocessingml.document"

/-- MIME type of spreadsheets handled by xlsx. -/
def driveXlsxMime : String := "application/vnd.openxmlformats-officedocument.spreadsheetml.sheet"

/-- MIME type of presentation decks handled by officeparser. -/
def drivePptxMime : String := "application/vnd.openxmlformats-officedocument.presentationml.presentation"

/-- The catch branch of `processAndSave`'s extraction `try`. -/
def driveErrorPlaceholder (fileName : String) : String :=
  "[Error extracting content from " ++ fileName ++ "]"

/-- The fallthrough branch of `processAndSave` for unrecognized MIME types. -/
def drivePlaceholder (fileName : String) : String :=
  "[Content from " ++ fileName ++ "]"

/-- The extraction dispatch of `KnowledgeManager.processAndSave`
(knowledge-manager.ts, lines 46–85): recognized types run their external
parser inside a `try` whose `catch` substitutes an error placeholder;
`text/*` decodes the buffer; anything else yields the content placeholder
without touching a parser. -/
def driveExtractText (env : DriveParserEnv) (fileName mimeType : String) : String :=
  let caught : ParseOutcome → String := fun r =>
    match r with
    | ParseOutcome.ok t => t
    | ParseOutcome.err => driveErrorPlaceholder fileName
  if mimeType = drivePdfMime then caught env.pdf
  else if mimeType = driveDocxMime then caught env.mammoth
  else if mimeType = driveXlsxMime then caught env.xlsxText
  else if mimeType = drivePptxMime then caught env.officeParse
  else if jsStartsWith mimeType "text/" then env.utf8
  else drivePlaceholder fileName

/-- The article record `processAndSave` builds from the extracted text
(knowledge-manager.ts, lines 87–107): Drive-synced articles are published
and visible to all four departments. -/
def processAndSaveArticle (nowMs : Nat) (fileName text : String)
    (sourceUrl : Option String) : KnowledgeArticle :=
  { id := "k-" ++ toString nowMs
    title := fileName
    content := text
    summary := jsSubstring text 200
    sourceType := "google_drive"
    sourceUrl := sourceUrl
    category := "technical"
    tags := []
    status := "published"
    authorId := "system"
    lastUpdatedBy := "system"
    createdAtMs := nowMs
    updatedAtMs := nowMs
    viewCount := 0
    relatedArticleIds := []
    allowedDepartments := some ["general", "admin", "sales", "engineering"] }

/-- Embedding of `KnowledgeManager.processAndSave`: extract text, build the article,
persist it to GCS (write failures are swallowed); returns the article. -/
def processAndSave (env : DriveParserEnv) (gcsOk : Bool) (s : GCSStore)
    (nowMs : Nat) (fileName mimeType : String) (sourceUrl : Option String) :
    KnowledgeArticle × GCSStore :=
  let article := processAndSaveArticle nowMs fileName
    (driveExtractText env fileName mimeType) sourceUrl
  (article, saveToGCS gcsOk s article)

/-! ### Scoped temporary file of the presentation-deck branch -/

/-- The temporary path `processAndSave` uses for presentation decks:
`os.tmpdir()` joined with `temp-<Date.now()>.pptx`. -/
def pptxTempPath (tmpdir : String) (nowMs : Nat) : String :=
  tmpdir ++ "/temp-" ++ toString nowMs ++ ".pptx"

/-- The pptx branch of `processAndSave` with its filesystem effects
(knowledge-manager.ts, lines 63–76).  The filesystem is the list of existing
paths.  `writeOk` is whether `fs.writeFile` succeeds; `parseOutcome` is what
`officeParser.parseOffice` delivers (resolved text or rejection).  The
`finally` block unlinks the temporary path on every exit, swallowing unlink
errors; the first component is the branch's own outcome (extracted text or
the propagated exception). -/
def pptxExtract (fs : List String) (tempPath : String) (writeOk : Bool)
    (parseOutcome : Except String String) : Except String String × List String :=
  if writeOk then
    let fsAfterWrite := tempPath :: fs
    (parseOutcome, fsAfterWrite.filter (fun p => p ≠ tempPath))
  else
    (Except.error "writeFile failed", fs.filter (fun p => p ≠ tempPath))

/-! ### Upload-path document parsing (`DocumentParserService.parseFile`) -/

/-- Models `path.extname`: the final extension of the path's basename, or
`""` when the basename has no dot after its first character. -/
def extname (p : String) : String :=
  let base := (p.toList.reverse.takeWhile (fun c => c ≠ '/')).reverse
  match base.reverse.findIdx? (fun c => c = '.') with
  | some ri =>
    let i := base.length - 1 - ri
    if i = 0 then "" else String.mk (base.drop i)
  | none => ""


/-- Environment for `DocumentParserService.parseFile`: outcomes of the
external parsers for each supported extension (the CSV outcome is the
already-textualized row digest `csvToText` produces). -/
structure UploadParserEnv where
  pdf : ParseOutcome
  csvText : ParseOutcome
  textFile : ParseOutcome
  jsonText : ParseOutcome

/-- The extraction dispatch of `DocumentParserService.parseFile`
(by lowercased extension): supported types run their parser, whose failure
is rethrown as a per-type message; an unrecognized extension throws
`Unsupported file type`. -/
def parseFile (env : UploadParserEnv) (filePath : String) : Except String String :=
  let extension := jsToLower (extname filePath)
  let rethrow : ParseOutcome → String → Except String String := fun r msg =>
    match r with
    | ParseOutcome.ok t => Except.ok t
    | ParseOutcome.err => Except.error (msg ++ filePath)
  if extension = ".pdf" then rethrow env.pdf "PDFファイルの解析に失敗しました: "
  else if extension = ".csv" then rethrow env.csvText "CSVファイルの解析に失敗しました: "
  else if extension = ".txt" ∨ extension = ".md" then
    rethrow env.textFile "テキストファイルの読み込みに失敗しました: "
  else if extension = ".json" then rethrow env.jsonText "JSONファイルの解析に失敗しました: "
  else Except.error ("Unsupported file type: " ++ extension)

/-- The article record the `/api/knowledge/upload` handler builds from a
parsed document (index.ts, lines 1118–1135): uploaded articles are published
but visible to the `general` department only. -/
def uploadArticle (nowMs : Nat) (userId : Option String)
    (originalName content : String) (analysisSummary : Option String)
    (analysisCategory : Option String) (analysisTags : Option (List String)) :
    KnowledgeArticle :=
  { id := "k-" ++ toString nowMs
    title := originalName
    content := content
    summary := analysisSummary.getD (jsSubstring content 200)
    category := analysisCategory.getD "technical"
    tags := analysisTags.getD []
    sourceType := "upload"
    sourceUrl := none
    status := "published"
    authorId := userId.getD "system"
    lastUpdatedBy := userId.getD "system"
    createdAtMs := nowMs
    updatedAtMs := nowMs
    viewCount := 0
    relatedArticleIds := []
    allowedDepartments := some ["general"] }

/-! ### JSON values and a model of `JSON.parse`

Numbers are restricted to integers, which covers every payload this code base
produces or consumes; a number with a fraction or exponent makes the parse
fail in the model. -/

/-- A parsed JSON value. -/
inductive Json where
  | null : Json
  | bool : Bool → Json
  | num : Int → Json
  | str : String → Json
  | arr : List Json → Json
  | obj : List (String × Json) → Json
deriving Repr

/-- JSON insignificant whitespace. -/
def jsonWs (c : Char) : Bool := c = ' ' || c = '\t' || c = '\n' || c = '\r'

/-- Drop leading JSON whitespace. -/
def skipJsonWs (cs : List Char) : List Char := cs.dropWhile jsonWs

/-- Numeric value of a digit run. -/
def digitsVal (ds : List Char) : Nat :=
  ds.foldl (fun a c => a * 10 + (c.toNat - '0'.toNat)) 0

/-- Body of a JSON string literal (after the opening quote): characters up to
the closing quote, decoding the common escapes; fails on an unterminated
string or an escape outside the supported set. -/
def parseStringChars (fuel : Nat) (cs : List Char) (acc : List Char) :
    Option (String × List Char) :=
  match fuel, cs with
  | 0, _ => none
  | _, [] => none
  | Nat.succ fuel, c :: rest =>
    if c = '"' then some (String.mk acc.reverse, rest)
    else if c = '\\' then
      match rest with
      | [] => none
      | e :: rest2 =>
        let esc : Option Char :=
          if e = '"' then some '"'
          else if e = '\\' then some '\\'
          else if e = '/' then some '/'
          else if e = 'n' then some '\n'
          else if e = 't' then some '\t'
          else if e = 'r' then some '\r'
          else none
        match esc with
        | some ec => parseStringChars fuel rest2 (ec :: acc)
        | none => none
    else parseStringChars fuel rest (c :: acc)

mutual

/-- Recursive-descent JSON value parser, total by fuel. -/
def parseJsonValue : Nat → List Char → Option (Json × List Char)
  | 0, _ => none
  | Nat.succ fuel, cs0 =>
    let cs := skipJsonWs cs0
    if cs.take 4 = "null".toList then some (Json.null, cs.drop 4)
    else if cs.take 4 = "true".toList then some (Json.bool true, cs.drop 4)
    else if cs.take 5 = "false".toList then some (Json.bool false, cs.drop 5)
    else
      match cs with
      | [] => none
      | c :: rest =>
        if c = '"' then
          match parseStringChars fuel rest [] with
          | some (s, r) => some (Json.str s, r)
          | none => none
        else if c = '[' then
          match skipJsonWs rest with
          | ']' :: r2 => some (Json.arr [], r2)
          | r => parseJsonElems fuel r []
        else if c = '{' then
          match skipJsonWs rest with
          | '}' :: r2 => some (Json.obj [], r2)
          | r => parseJsonMembers fuel r []
        else
          let (neg, csNum) := if c = '-' then (true, rest) else (false, cs)
          let (ds, csRest) := csNum.span (fun d => d.isDigit)
          if ds = [] then none
          else
            match csRest with
            | '.' :: _ => none
            | 'e' :: _ => none
            | 'E' :: _ => none
            | _ =>
              let n : Int := Int.ofNat (digitsVal ds)
              some (Json.num (if neg then -n else n), csRest)

/-- Comma-separated array elements up to `]`. -/
def parseJsonElems : Nat → List Char → List Json → Option (Json × List Char)
  | 0, _, _ => none
  | Nat.succ fuel, cs, acc =>
    match parseJsonValue fuel cs with
    | none => none
    | some (v, r) =>
      match skipJsonWs r with
      | ',' :: r2 => parseJsonElems fuel r2 (v :: acc)
      | ']' :: r2 => some (Json.arr (v :: acc).reverse, r2)
      | _ => none

/-- Comma-separated `"key": value` members up to `}`. -/
def parseJsonMembers : Nat → List Char → List (String × Json) →
    Option (Json × List Char)
  | 0, _, _ => none
  | Nat.succ fuel, cs, acc =>
    match skipJsonWs cs with
    | '"' :: r =>
      match parseStringChars fuel r [] with
      | none => none
      | some (k, r2) =>
        match skipJsonWs r2 with
        | ':' :: r3 =>
          match parseJsonValue fuel r3 with
          | none => none
          | some (v, r4) =>
            match skipJsonWs r4 with
            | ',' :: r5 => parseJsonMembers fuel r5 ((k, v) :: acc)
            | '}' :: r5 => some (Json.obj ((k, v) :: acc).reverse, r5)
            | _ => none
        | _ => none
    | _ => none

end

/-- Models `JSON.parse`: the whole input must be one value plus whitespace. -/
def Json.parse (s : String) : Option Json :=
  let cs := s.toList
  match parseJsonValue (2 * cs.length + 8) cs with
  | some (v, rest) => if skipJsonWs rest = [] then some v else none
  | none => none

/-! ### The regex extraction used by `GeminiService` -/

/-- Models a greedy regex match `open[\s\S]*close` (as in `/\x7b[\s\S]*\x7d/`):
the substring from the first opening character to the last closing character,
when the latter lies strictly after the former. -/
def regionMatch (openC closeC : Char) (s : String) : Option String :=
  let cs := s.toList
  match cs.findIdx? (fun c => c = openC), cs.reverse.findIdx? (fun c => c = closeC) with
  | some i, some ri =>
    let j := cs.length - 1 - ri
    if i < j then some (String.mk ((cs.drop i).take (j - i + 1))) else none
  | _, _ => none

/-- The brace-region recovery both object-extraction call sites use:
match `/\x7b[\s\S]*\x7d/` and `JSON.parse` the match. -/
def jsonRecover (t : String) : Option Json :=
  (regionMatch '{' '}' t).bind Json.parse

/-- The bracket-region recovery of `generateFollowUpQuestions`:
match `/\[[\s\S]*\]/` and `JSON.parse` the match. -/
def bracketRecover (t : String) : Option Json :=
  (regionMatch '[' ']' t).bind Json.parse

/-- JavaScript truthiness of a JSON value. -/
def jsTruthy : Json → Bool
  | Json.null => false
  | Json.bool b => b
  | Json.num n => n ≠ 0
  | Json.str s => s ≠ ""
  | Json.arr _ => true
  | Json.obj _ => true

/-- Property lookup on a parsed JSON value (`undefined` as `none`). -/
def getField (j : Json) (k : String) : Option Json :=
  match j with
  | Json.obj ms => (ms.find? (fun kv => kv.1 = k)).map (fun kv => kv.2)
  | _ => none

/-- Models `v || dflt` on a possibly-missing JSON value. -/
def jsOr (v : Option Json) (dflt : Json) : Json :=
  match v with
  | some x => if jsTruthy x then x else dflt
  | none => dflt

/-- The extraction result of `GeminiService.extractFromDocument`; `metadata`
and `keyPoints` carry whatever JSON the model returned for those fields. -/
structure ExtractedData where
  documentType : String
  text : String
  metadata : Json
  keyPoints : Json
deriving Repr

/-- The `catch` result of `extractFromDocument` (gemini.ts, lines 152–160). -/
def defaultExtracted (content : String) : ExtractedData :=
  { documentType := "unknown"
    text := content
    metadata := Json.obj []
    keyPoints := Json.arr [] }

/-- Embedding of `GeminiService.extractFromDocument` applied to the generation model's
text output: recover a JSON object via the brace regex; a failed match or
failed parse is caught and yields the fixed default. -/
def extractFromDocument (modelText content documentType : String) : ExtractedData :=
  match jsonRecover modelText with
  | none => defaultExtracted content
  | some j =>
    { documentType := documentType
      text := content
      metadata := jsOr (getField j "metadata") (Json.obj [])
      keyPoints := jsOr (getField j "keyPoints") (Json.arr []) }

/-- The parse step of `GeminiService.generateFollowUpQuestions` applied to
the model's text output: bracket-region recovery, `[]` when the match or the
parse fails. -/
def followUpFromText (modelText : String) : Json :=
  match bracketRecover modelText with
  | some j => j
  | none => Json.arr []

/-! ### `GeminiService.query` and its generation environment -/

/-- An error thrown by the generation endpoint: HTTP-ish status and message. -/
structure GenError where
  status : Option Nat
  message : String
deriving DecidableEq, Repr

/-- Outcome of one `generateContent` call. -/
inductive GenOutcome where
  | ok : String → GenOutcome
  | err : GenError → GenOutcome
deriving DecidableEq, Repr

/-- The generation endpoint: model name and prompt to outcome. -/
structure GenEnv where
  generate : String → String → GenOutcome

/-- The single model `GeminiService` is constructed with (gemini.ts, 58–70). -/
def geminiModelName : String := "gemini-1.5-flash"

/-- A FAQ record as used in the prompt context. -/
structure FAQ where
  question : String
  answer : String
deriving DecidableEq, Repr

/-- The `companyInfo` slice of the prompt context. -/
structure CompanyInfo where
  name : String
  industry : String
  description : String
deriving DecidableEq, Repr

/-- The `CompanyContext` record as consumed by `GeminiService.query`. -/
structure CompanyContext where
  companyInfo : CompanyInfo
  relevantArticles : List KnowledgeArticle
  relevantFAQs : List FAQ
deriving DecidableEq, Repr

/-- The fixed framing of `buildSystemPrompt`. -/
def systemPromptBase : String :=
  "あなたは「Company Brain」という社内AIアシスタントです。\n会社の事業、社員、プロジェクト、社内規定などについて、正確で親切な回答を提供してください。\n\n基本ルール:\n- 社内情報に基づいて回答してください\n- 不確かな情報は「確認が必要です」と伝えてください\n- 個人情報の取り扱いには注意してください"

/-- Embedding of `GeminiService.buildSystemPrompt` (gemini.ts, 354–385): framing, company
info, then one `- title: summary` line per relevant article and a Q/A block
per FAQ. -/
def buildSystemPrompt (ctx : CompanyContext) : String :=
  let p := systemPromptBase ++ "\n\n【会社情報】\n会社名: " ++ ctx.companyInfo.name
    ++ "\n業種: " ++ ctx.companyInfo.industry ++ "\n概要: " ++ ctx.companyInfo.description
  let p := if 0 < ctx.relevantArticles.length then
      p ++ "\n\n【関連ナレッジ】\n"
        ++ String.join (ctx.relevantArticles.map (fun a => "- " ++ a.title ++ ": " ++ a.summary ++ "\n"))
    else p
  if 0 < ctx.relevantFAQs.length then
    p ++ "\n\n【関連FAQ】\n"
      ++ String.join (ctx.relevantFAQs.map (fun f => "Q: " ++ f.question ++ "\nA: " ++ f.answer ++ "\n\n"))
  else p

/-- The full prompt `query` sends (gemini.ts, 84–91): system prompt, the
relevant articles pasted in full (`title: content`, joined by blank lines),
then the user's question and the answering instructions. -/
def queryPrompt (ctx : CompanyContext) (question : String) : String :=
  buildSystemPrompt ctx ++ "\n        \n"
  ++ (if 0 < ctx.relevantArticles.length then
        "【重要：以下の追加ナレッジも考慮してください】\n"
          ++ joinSep "\n\n" (ctx.relevantArticles.map (fun a => a.title ++ ": " ++ a.content))
      else "")
  ++ "\n\nユーザーの質問: " ++ question
  ++ "\n\n社内情報を参考に、丁寧かつ具体的に回答してください。ナレッジに基づいて回答した場合は、どの資料を参考にしたかも明記してください。"

/-- The message thrown for a 429 from the generation endpoint. -/
def rateLimitMessage : String :=
  "AIの利用制限（1日の回数上限など）に達しました。しばらく時間を置いてから再度お試しください。"

/-- The message thrown for every other generation failure: a generic line
with the original error's message appended (`不明なエラー` when empty). -/
def genericFailureMessage (m : String) : String :=
  "AIからの回答取得に失敗しました。詳細: " ++ (if m = "" then "不明なエラー" else m)

/-- The `catch` branch of `query` (gemini.ts, 104–110). -/
def classifyGenError (e : GenError) : String :=
  if e.status = some 429 then rateLimitMessage else genericFailureMessage e.message

/-- The prompt of `generateFollowUpQuestions` (gemini.ts, 394–399). -/
def followUpPrompt (question answer : String) : String :=
  "以下の質問と回答を踏まえて、ユーザーが次に聞きそうな関連質問を3つ提案してください。\n\n質問: " ++ question
  ++ "\n回答: " ++ answer
  ++ "\n\nJSON配列形式で回答してください（例: [\"質問1\", \"質問2\", \"質問3\"]）:"

/-- Embedding of `GeminiService.generateFollowUpQuestions`: a best-effort second call to
the same model; any thrown error degrades to `[]`. -/
def generateFollowUpQuestions (env : GenEnv) (question answer : String) : Json :=
  match env.generate geminiModelName (followUpPrompt question answer) with
  | GenOutcome.ok t => followUpFromText t
  | GenOutcome.err _ => Json.arr []

/-- The structured response of `query`. -/
structure AIResponse where
  answer : String
  sources : List String
  confidence : Nat
  suggestedQuestions : Json
deriving Repr

/-- Embedding of `GeminiService.query` (gemini.ts, 75–111), instrumented with the list of
generation-model names invoked, in order.  One `generateContent` call on the
single configured model; on success the text is used as the answer (and the
follow-up call hits the same model); on failure the classified message is
thrown — no other model is ever tried. -/
def queryWithTrace (env : GenEnv) (question : String) (ctx : CompanyContext) :
    Except String AIResponse × List String :=
  match env.generate geminiModelName (queryPrompt ctx question) with
  | GenOutcome.ok text =>
    (Except.ok
      { answer := text
        sources := ctx.relevantArticles.map (fun a => a.title)
        confidence := 85
        suggestedQuestions := generateFollowUpQuestions env question text },
     [geminiModelName, geminiModelName])
  | GenOutcome.err e => (Except.error (classifyGenError e), [geminiModelName])

/-! ### `/api/chat` context assembly (index.ts, 816–905) -/

/-- A member skill (only the name reaches the chat digest). -/
structure Skill where
  name : String
  category : String
  level : String
deriving DecidableEq, Repr

/-- The member fields the chat digest reads. -/
structure Member where
  id : String
  name : String
  department : String
  position : String
  skills : List Skill
  workloadStatus : String
deriving DecidableEq, Repr

/-- The project fields the chat digest reads; `deadlineText` carries the
already-rendered `toLocaleDateString('ja-JP')` display of the deadline. -/
structure Project where
  id : String
  name : String
  category : Option String
  status : String
  progressPercent : Nat
  assignees : List String
  deadlineText : String
  description : Option String
deriving DecidableEq, Repr

/-- One project's block of the chat digest (index.ts, 853–871). -/
def projectDigest (ms : List Member) (p : Project) : String :=
  let assigneeNames := joinSep ", "
    ((ms.filter (fun m => p.assignees.contains m.id)).map (fun m => m.name))
  let cat := p.category.getD ""
  let statusText :=
    if p.status = "planning" then "企画中"
    else if p.status = "in_progress" then "進行中" else "完了"
  let base := "\n- " ++ p.name ++ " (" ++ (if cat = "" then "未分類" else cat) ++ ")\n"
    ++ "  状態: " ++ statusText ++ "\n"
    ++ "  進捗: " ++ toString p.progressPercent ++ "%\n"
    ++ "  担当者: " ++ (if assigneeNames = "" then "未割り当て" else assigneeNames) ++ "\n"
    ++ "  期限: " ++ p.deadlineText ++ "\n"
  let d := p.description.getD ""
  if d ≠ "" ∧ 200 < d.length then base ++ "  概要: " ++ jsSubstring d 200 ++ "...\n"
  else base ++ "  概要: " ++ (if d = "" then "なし" else d) ++ "\n"

/-- One member's block of the chat digest (index.ts, 881–887). -/
def memberDigest (m : Member) : String :=
  let skills := joinSep ", " ((m.skills.take 5).map (fun s => s.name))
  "\n- " ++ m.name ++ " (" ++ (if m.department = "" then "未所属" else m.department)
    ++ " / " ++ (if m.position = "" then "未設定" else m.position) ++ ")\n"
  ++ "  スキル: " ++ (if skills = "" then "なし" else skills) ++ "\n"
  ++ "  作業負荷: "
  ++ (if m.workloadStatus = "available" then "対応可能"
      else if m.workloadStatus = "busy" then "多忙" else "過負荷") ++ "\n"

/-- The organizational digest the chat handler appends to the company
description: up to 5 in-progress projects and up to 10 members. -/
def enhancedContext (projects : List Project) (ms : List Member) : String :=
  let active := (projects.filter (fun p => p.status = "in_progress")).take 5
  let s := "\n\n【現在のプロジェクト一覧】\n" ++ String.join (active.map (projectDigest ms))
  let s := if 5 < projects.length then
      s ++ "\n...他 " ++ toString (projects.length - 5) ++ " 件のプロジェクトがあります。\n"
    else s
  let s := s ++ "\n【メンバー一覧】\n" ++ String.join ((ms.take 10).map memberDigest)
  if 10 < ms.length then
    s ++ "\n...他 " ++ toString (ms.length - 10) ++ " 名のメンバーがいます。\n"
  else s

/-- The static `companyContext.companyInfo` of index.ts. -/
def baseCompanyInfo : CompanyInfo :=
  { name := "Company Brain Inc."
    industry := "AI & Software"
    description := "次世代の社内ナレッジ管理・AIアシスタントソリューションを提供します。" }

/-- The sample FAQs index.ts keeps in the static company context. -/
def sampleFAQs : List FAQ :=
  [ { question := "有給休暇の申請方法は？"
      answer := "社内システム「勤怠管理」からオンラインで申請できます。申請後、上長の承認が必要です。" },
    { question := "経費精算の締め日はいつ？"
      answer := "毎月25日が締め日です。翌月10日に振り込まれます。" } ]

/-- The context the `/api/chat` handler assembles (index.ts, 893–901): the
live digest is appended to the company description and the combined string is
truncated to 10,000 characters; the retrieved articles are attached as-is. -/
def chatContext (projects : List Project) (ms : List Member)
    (articles : List KnowledgeArticle) : CompanyContext :=
  { companyInfo :=
      { baseCompanyInfo with
        description :=
          jsSubstring (baseCompanyInfo.description ++ enhancedContext projects ms) 10000 }
    relevantArticles := articles
    relevantFAQs := sampleFAQs }

/-! ### Spec-side definition for the structured-output recovery (C4)

The next two definitions follow the specification's words (§4.5), not the
source, so that the source's recovery can be compared against them. -/

/-- Split a character list at the first occurrence of a pattern: the part
before it and the part after it, or `none` when the pattern never occurs. -/
def splitFirst (pat : List Char) : List Char → Option (List Char × List Char)
  | [] => if pat.isEmpty then some ([], []) else none
  | c :: cs =>
    if pat.isPrefixOf (c :: cs) then some ([], (c :: cs).drop pat.length)
    else
      match splitFirst pat cs with
      | some (pre, post) => some (c :: pre, post)
      | none => none

/-- Strip leading and trailing whitespace from a character list. -/
def trimChars (cs : List Char) : List Char :=
  ((cs.dropWhile jsonWs).reverse.dropWhile jsonWs).reverse

/-- The spec's first strategy: the payload of a fenced ```json block — the
trimmed text between the first ```json marker and the next ``` fence. -/
def fencedJsonBlock (s : String) : Option String :=
  match splitFirst "```json".toList s.toList with
  | none => none
  | some (_, after) =>
    match splitFirst "```".toList after with
    | none => none
    | some (payload, _) => some (String.mk (trimChars payload))

/-- The recovery procedure as the specification words it: try a fenced JSON
block, then a balanced brace region, then a balanced bracket region; parse
the first strategy that succeeds. -/
def specOrderedRecovery (s : String) : Option Json :=
  match (fencedJsonBlock s).bind Json.parse with
  | some j => some j
  | none =>
    match (regionMatch '{' '}' s).bind Json.parse with
    | some j => some j
    | none => (regionMatch '[' ']' s).bind Json.parse

/-! ## Helper lemmas -/

/-- Membership after a ranked insertion comes from the new entry or the list. -/
theorem mem_insertByScore {score : String → Int} {e a : PineconeEntry}
    {l : List PineconeEntry} (h : a ∈ insertByScore score e l) : a = e ∨ a ∈ l := by
  induction l with
  | nil =>
    simp [insertByScore] at h
    exact Or.inl h
  | cons x xs ih =>
    simp only [insertByScore] at h
    split at h
    · rcases List.mem_cons.mp h with h | h
      · exact Or.inl h
      · exact Or.inr h
    · rcases List.mem_cons.mp h with h | h
      · exact Or.inr (List.mem_cons.mpr (Or.inl h))
      · rcases ih h with h | h
        · exact Or.inl h
        · exact Or.inr (List.mem_cons.mpr (Or.inr h))

/-- Ranking by similarity score only reorders: membership is preserved. -/
theorem mem_rankByScore {score : String → Int} {a : PineconeEntry} :
    ∀ {l : List PineconeEntry}, a ∈ rankByScore score l → a ∈ l := by
  intro l
  induction l with
  | nil => intro h; simp [rankByScore] at h
  | cons x xs ih =>
    intro h
    simp only [rankByScore] at h
    rcases mem_insertByScore h with h | h
    · simp [h]
    · exact List.mem_cons_of_mem _ (ih h)

/-- Filtering away a key and then for it leaves nothing. -/
theorem filter_ne_then_eq {α : Type} (key : α → String) (n : String) :
    ∀ l : List α, (l.filter (fun x => key x ≠ n)).filter (fun x => key x = n) = []
  | [] => rfl
  | x :: xs => by
    by_cases h : key x = n <;> simp [h, filter_ne_then_eq key n xs]

/-- The truncation `substring(0, n)` never yields more than `n` characters. -/
theorem jsSubstring_length_le (s : String) (n : Nat) :
    (jsSubstring s n).length ≤ n := by
  show (s.toList.take n).length ≤ n
  simp [List.length_take]

/-! ## C1 — search scope filtering -/

/-- Vector environment with all backends healthy, used as concrete input. -/
def envHealthy : VectorEnv :=
  { available := true
    embed := fun _ => Except.ok [1]
    queryFails := false
    score := fun _ => 0 }

/-- An indexed record whose access scope is the sales department only. -/
def salesOnlyEntry : PineconeEntry :=
  { id := "a1"
    values := [1]
    metadata :=
      { title := "Sales playbook"
        summary := "internal sales notes"
        category := "technical"
        sourceUrl := none
        allowedDepartments := some ["sales"] } }

/-- C1 counterexample: for the caller scope `admin`, `search` applies no
filter at all and returns an article whose `allowedDepartments` is
`["sales"]` — a scope that excludes `admin` and is not unrestricted.  The
claim's universal guarantee therefore fails at this concrete input. -/
theorem search_admin_sees_excluded_article :
    (search envHealthy [salesOnlyEntry] 0 "q" (some "admin") 5).map
      (fun a => a.allowedDepartments) = [some ["sales"]] ∧
    (["sales"] : List String).contains "admin" = false :=
  ⟨rfl, rfl⟩

/-- C1 (amended): for every caller department other than `admin` (and other
than the empty string, which JavaScript treats as no department), every
article returned by `search` has the caller's department in its
`allowedDepartments`; for `admin` or an absent department the filter is
skipped entirely. -/
theorem search_respects_scope_for_non_admin
    (env : VectorEnv) (index : List PineconeEntry) (nowMs : Nat)
    (q d : String) (limit : Nat) (a : KnowledgeArticle)
    (hd1 : d ≠ "") (hd2 : d ≠ "admin")
    (ha : a ∈ search env index nowMs q (some d) limit) :
    d ∈ a.allowedDepartments.getD [] := by
  unfold search at ha
  by_cases hav : env.available
  · rw [if_pos hav] at ha
    cases hemb : env.embed q with
    | error m => rw [hemb] at ha; simp at ha
    | ok v =>
      rw [hemb] at ha
      unfold pineconeQuery at ha
      by_cases hq : env.queryFails
      · rw [if_pos hq] at ha; simp at ha
      · rw [if_neg hq] at ha
        simp only at ha
        rcases List.mem_map.mp ha with ⟨e, he, hae⟩
        have he' : e ∈ rankByScore env.score
            (index.filter (matchesFilter (mkFilter (some d)))) :=
          List.take_subset _ _ he
        have he'' : e ∈ index.filter (matchesFilter (mkFilter (some d))) :=
          mem_rankByScore he'
        have hmf : matchesFilter (mkFilter (some d)) e = true :=
          (List.mem_filter.mp he'').2
        have hfil : mkFilter (some d) = some d := by
          simp [mkFilter, hd1, hd2]
        rw [hfil] at hmf
        unfold matchesFilter at hmf
        cases hads : e.metadata.allowedDepartments with
        | none => rw [hads] at hmf; simp at hmf
        | some ds =>
          rw [hads] at hmf
          have hdm : d ∈ ds := by simpa using hmf
          rw [← hae]
          simp [matchToArticle, hads, hdm]
  · rw [if_neg hav] at ha; simp at ha

/-- Witness for the amended C1 at a concrete input: a `sales` caller
receives the sales-scoped article, and `sales` is in its access scope. -/
theorem search_respects_scope_witness :
    "sales" ∈ ((matchToArticle 0 salesOnlyEntry).allowedDepartments.getD []) :=
  search_respects_scope_for_non_admin envHealthy [salesOnlyEntry] 0 "q" "sales" 5
    (matchToArticle 0 salesOnlyEntry) (by decide) (by decide) (by decide)

/-! ## C7 — search degrades to empty on backend failure -/

/-- C7: whenever the Pinecone client is unavailable, the embedding call
errors, or the vector query throws, `search` returns `[]` instead of
propagating the failure. -/
theorem search_returns_empty_on_failure
    (env : VectorEnv) (index : List PineconeEntry) (nowMs : Nat)
    (q : String) (d : Option String) (limit : Nat)
    (h : env.available = false ∨ (∃ m, env.embed q = Except.error m) ∨
      env.queryFails = true) :
    search env index nowMs q d limit = [] := by
  unfold search
  rcases h with h | ⟨m, h⟩ | h
  · simp [h]
  · by_cases hav : env.available
    · simp [hav, h]
    · simp [hav]
  · by_cases hav : env.available
    · rw [if_pos hav]
      cases hemb : env.embed q with
      | error m => simp
      | ok v => simp [pineconeQuery, h]
    · simp [hav]

/-- Vector environment whose embedding backend is down. -/
def envEmbedDown : VectorEnv :=
  { available := true
    embed := fun _ => Except.error "embedding backend unavailable"
    queryFails := false
    score := fun _ => 0 }

/-- Witness for C7 at a concrete input: with the embedding backend failing,
`search` returns the empty list. -/
theorem search_returns_empty_on_failure_witness :
    search envEmbedDown [salesOnlyEntry] 0 "q" (some "sales") 5 = [] :=
  search_returns_empty_on_failure envEmbedDown [salesOnlyEntry] 0 "q"
    (some "sales") 5 (Or.inr (Or.inl ⟨"embedding backend unavailable", rfl⟩))

/-! ## C8 — upsert idempotence -/

/-- Overwriting the same GCS object twice equals overwriting it once. -/
theorem gcsSave_idem (s : GCSStore) (name : String) (a : KnowledgeArticle) :
    gcsSave (gcsSave s name a) name a = gcsSave s name a := by
  unfold gcsSave
  simp [List.filter_filter]

/-- After a GCS overwrite there is exactly one object under the name. -/
theorem gcsSave_count (s : GCSStore) (name : String) (a : KnowledgeArticle) :
    ((gcsSave s name a).filter (fun kv => kv.1 = name)).length = 1 := by
  unfold gcsSave
  simp [filter_ne_then_eq (fun kv : String × KnowledgeArticle => kv.1) name s]

/-- Overwriting the same Pinecone id twice equals overwriting it once. -/
theorem pineconeUpsert_idem (idx : List PineconeEntry) (e : PineconeEntry) :
    pineconeUpsert (pineconeUpsert idx e) e = pineconeUpsert idx e := by
  unfold pineconeUpsert
  simp [List.filter_filter]

/-- After a Pinecone overwrite there is exactly one record under the id. -/
theorem pineconeUpsert_count (idx : List PineconeEntry) (e : PineconeEntry) :
    ((pineconeUpsert idx e).filter (fun x => x.id = e.id)).length = 1 := by
  unfold pineconeUpsert
  simp [filter_ne_then_eq (fun x : PineconeEntry => x.id) e.id idx]

/-- C8: upserting an article twice with identical content is the same as
upserting it once, on the durable store and on the vector index alike, and
when the writes succeed exactly one record is retrievable under the
article's id in each store. -/
theorem upsert_idempotent (venv : VectorEnv) (gcsOk : Bool) (s : GCSStore)
    (idx : List PineconeEntry) (a : KnowledgeArticle) :
    saveToGCS gcsOk (saveToGCS gcsOk s a) a = saveToGCS gcsOk s a ∧
    upsertArticle venv (upsertArticle venv idx a) a = upsertArticle venv idx a ∧
    (gcsOk = true →
      ((saveToGCS gcsOk s a).filter (fun kv => kv.1 = a.id ++ ".json")).length = 1) ∧
    (venv.available = true → ∀ v, venv.embed (textToEmbed a) = Except.ok v →
      ((upsertArticle venv idx a).filter (fun x => x.id = a.id)).length = 1) := by
  refine ⟨?_, ?_, ?_, ?_⟩
  · unfold saveToGCS
    by_cases h : gcsOk <;> simp [h, gcsSave_idem]
  · unfold upsertArticle
    by_cases h : venv.available
    · simp only [h, if_pos]
      cases hemb : venv.embed (textToEmbed a) with
      | error m => simp
      | ok v => simp [hemb, pineconeUpsert_idem]
    · simp [h]
  · intro h
    unfold saveToGCS
    simp [h, gcsSave_count]
  · intro h v hemb
    unfold upsertArticle
    simp only [h, if_pos, hemb]
    exact pineconeUpsert_count idx _

/-- A concrete article used as witness input. -/
def vacationArticle : KnowledgeArticle :=
  { id := "k-100"
    title := "vacation-policy.txt"
    content := "Vacation policy: 20 days/year"
    summary := "Vacation policy: 20 days/year"
    sourceType := "google_drive"
    sourceUrl := none
    category := "technical"
    tags := []
    status := "published"
    authorId := "system"
    lastUpdatedBy := "system"
    createdAtMs := 100
    updatedAtMs := 100
    viewCount := 0
    relatedArticleIds := []
    allowedDepartments := some ["general"] }

/-- Witness for C8 at a concrete input: double upsert of the vacation-policy
article equals a single upsert, and each store holds exactly one record. -/
theorem upsert_idempotent_witness :
    saveToGCS true (saveToGCS true [] vacationArticle) vacationArticle =
      saveToGCS true [] vacationArticle ∧
    ((saveToGCS true [] vacationArticle).filter
      (fun kv => kv.1 = vacationArticle.id ++ ".json")).length = 1 ∧
    ((upsertArticle envHealthy [] vacationArticle).filter
      (fun x => x.id = vacationArticle.id)).length = 1 :=
  ⟨(upsert_idempotent envHealthy true [] [] vacationArticle).1,
   (upsert_idempotent envHealthy true [] [] vacationArticle).2.2.1 rfl,
   (upsert_idempotent envHealthy true [] [] vacationArticle).2.2.2 rfl [1] rfl⟩

/-! ## C9 — scoped temporary file for presentation decks -/

/-- C9: the pptx branch removes its temporary file on every exit path — the
final filesystem is the initial one with the temporary path absent, whether
the write fails, the converter rejects, or parsing succeeds — and when the
write succeeds the branch's outcome is exactly the converter's outcome. -/
theorem pptx_temp_file_always_deleted (fs : List String) (tmpdir : String)
    (nowMs : Nat) (writeOk : Bool) (po : Except String String) :
    (pptxExtract fs (pptxTempPath tmpdir nowMs) writeOk po).2 =
      fs.filter (fun p => p ≠ pptxTempPath tmpdir nowMs) ∧
    pptxTempPath tmpdir nowMs ∉ (pptxExtract fs (pptxTempPath tmpdir nowMs) writeOk po).2 ∧
    (pptxExtract fs (pptxTempPath tmpdir nowMs) true po).1 = po := by
  refine ⟨?_, ?_, by simp [pptxExtract]⟩
  · unfold pptxExtract
    by_cases h : writeOk <;> simp [h]
  · unfold pptxExtract
    by_cases h : writeOk <;> simp [h]

/-! ## C10 — access scope of synced vs uploaded articles -/

/-- C10: every Drive-synced article is created published with all four
departments in scope — so the scope filter of `search` admits it for every
department — while a directly uploaded article is scoped to `general` only. -/
theorem synced_articles_visible_to_all_departments
    (nowMs : Nat) (fileName text : String) (sourceUrl : Option String)
    (userId : Option String) (originalName content : String)
    (s1 s2 : Option String) (s3 : Option (List String)) :
    (processAndSaveArticle nowMs fileName text sourceUrl).allowedDepartments =
      some ["general", "admin", "sales", "engineering"] ∧
    (processAndSaveArticle nowMs fileName text sourceUrl).status = "published" ∧
    (uploadArticle nowMs userId originalName content s1 s2 s3).allowedDepartments =
      some ["general"] ∧
    matchesFilter (mkFilter (some "general"))
      { id := "e", values := [],
        metadata := metadataOf (processAndSaveArticle nowMs fileName text sourceUrl) } = true ∧
    matchesFilter (mkFilter (some "sales"))
      { id := "e", values := [],
        metadata := metadataOf (processAndSaveArticle nowMs fileName text sourceUrl) } = true ∧
    matchesFilter (mkFilter (some "engineering"))
      { id := "e", values := [],
        metadata := metadataOf (processAndSaveArticle nowMs fileName text sourceUrl) } = true ∧
    matchesFilter (mkFilter (some "admin"))
      { id := "e", values := [],
        metadata := metadataOf (processAndSaveArticle nowMs fileName text sourceUrl) } = true :=
  ⟨rfl, rfl, rfl, rfl, rfl, rfl, rfl⟩

/-! ## C2 — generation model fallback -/

/-- The default context `query` builds when the caller passes none. -/
def defaultCompanyContext : CompanyContext :=
  { companyInfo := { name := "サンプル株式会社", industry := "IT", description := "" }
    relevantArticles := []
    relevantFAQs := [] }

/-- A generation environment in which the configured model fails while a
hypothetical fallback model `model-B` would succeed. -/
def envFlashFailsBWorks : GenEnv :=
  { generate := fun m _ =>
      if m = "gemini-1.5-flash" then GenOutcome.err { status := some 500, message := "boom" }
      else GenOutcome.ok "hello from B" }

/-- C2 counterexample: in an environment where the first model fails and a
second model would return non-empty text, `query` raises the classified
error instead of using the second model's result, and no model other than
`gemini-1.5-flash` is ever invoked — there is no candidate list. -/
theorem query_has_no_fallback_counterexample :
    (queryWithTrace envFlashFailsBWorks "q" defaultCompanyContext).1 =
      Except.error "AIからの回答取得に失敗しました。詳細: boom" ∧
    ((queryWithTrace envFlashFailsBWorks "q" defaultCompanyContext).2.contains "model-B") = false ∧
    envFlashFailsBWorks.generate "model-B" (queryPrompt defaultCompanyContext "q") =
      GenOutcome.ok "hello from B" :=
  ⟨rfl, rfl, rfl⟩

/-- C2 (amended): `query` drives a single configured model, not a candidate
list: every generation call it makes targets `gemini-1.5-flash`, the first
call targets it, and the request succeeds exactly when that first call
returns text — a failure is surfaced as an error, with no further model
tried. -/
theorem query_single_model_only (env : GenEnv) (q : String) (ctx : CompanyContext) :
    ((queryWithTrace env q ctx).2.all (fun m => m == geminiModelName)) = true ∧
    (queryWithTrace env q ctx).2.head? = some geminiModelName ∧
    (queryWithTrace env q ctx).1.isOk =
      (match env.generate geminiModelName (queryPrompt ctx q) with
       | GenOutcome.ok _ => true
       | GenOutcome.err _ => false) := by
  cases h : env.generate geminiModelName (queryPrompt ctx q) with
  | ok t => simp [queryWithTrace, h, Except.isOk, Except.toBool]
  | err e => simp [queryWithTrace, h, Except.isOk, Except.toBool]

/-! ## C3 — classification of generation failures -/

/-- A generation environment that always fails with a permission error. -/
def envPermissionDenied : GenEnv :=
  { generate := fun _ _ =>
      GenOutcome.err { status := some 403, message := "PERMISSION_DENIED" } }

/-- C3 counterexample: when every (i.e. the single) generation attempt fails
with a permission-type error, `query` does not produce a
credential/API-not-enabled category message; it throws the generic message
with the raw exception string appended verbatim. -/
theorem query_permission_error_counterexample :
    (queryWithTrace envPermissionDenied "q" defaultCompanyContext).1 =
      Except.error "AIからの回答取得に失敗しました。詳細: PERMISSION_DENIED" ∧
    ("PERMISSION_DENIED".toList.isSuffixOf
      "AIからの回答取得に失敗しました。詳細: PERMISSION_DENIED".toList) = true :=
  ⟨rfl, by decide⟩

/-- C3 (amended): the failure translation of `query` has exactly two cases:
a status-429 error is mapped to the fixed quota message, and every other
error — not-found, permission, safety or otherwise — is mapped to the
generic message with the original error's message text appended
(`不明なエラー` when empty).  There is no not-found / permission /
safety-block classification. -/
theorem query_failure_translation (env : GenEnv) (q : String)
    (ctx : CompanyContext) (e : GenError)
    (h : env.generate geminiModelName (queryPrompt ctx q) = GenOutcome.err e) :
    (e.status = some 429 →
      (queryWithTrace env q ctx).1 = Except.error rateLimitMessage) ∧
    (e.status ≠ some 429 →
      (queryWithTrace env q ctx).1 = Except.error
        ("AIからの回答取得に失敗しました。詳細: " ++
          (if e.message = "" then "不明なエラー" else e.message))) := by
  constructor
  · intro h429
    simp [queryWithTrace, h, classifyGenError, h429]
  · intro h429
    simp [queryWithTrace, h, classifyGenError, h429, genericFailureMessage]

/-- A generation environment that always fails with a rate-limit error. -/
def envRateLimited : GenEnv :=
  { generate := fun _ _ => GenOutcome.err { status := some 429, message := "quota" } }

/-- Witness for the amended C3 at a concrete input: a 429 failure surfaces
the quota message. -/
theorem query_failure_translation_witness :
    (queryWithTrace envRateLimited "q" defaultCompanyContext).1 =
      Except.error rateLimitMessage :=
  (query_failure_translation envRateLimited "q" defaultCompanyContext
    { status := some 429, message := "quota" } rfl).1 rfl

/-! ## C4 — structured-output recovery -/

/-- Model output that defeats the brace regex: a stray opening brace before
a fenced JSON block.  The spec's ordered strategies would parse the fenced
payload; the source's single greedy brace region is unparseable junk. -/
def strayBraceModelOutput : String :=
  "note \x7bbroken ```json\n\x7b\"keyPoints\":[\"x\"]\x7d\n``` tail"

/-- C4 counterexample: on `strayBraceModelOutput` the spec's fenced-first
strategy order recovers the object with `keyPoints = ["x"]`, but the
source's recovery — a single greedy brace region — fails to parse and
`extractFromDocument` silently returns its built-in default (`keyPoints`
empty), so the claimed strategy order does not hold of the code. -/
theorem recovery_strategy_order_counterexample :
    specOrderedRecovery strayBraceModelOutput =
      some (Json.obj [("keyPoints", Json.arr [Json.str "x"])]) ∧
    jsonRecover strayBraceModelOutput = none ∧
    (extractFromDocument strayBraceModelOutput "doc content" "text").keyPoints =
      Json.arr [] :=
  ⟨rfl, rfl, rfl⟩

/-- C4 (amended): the recovery applies one strategy per call site — the
greedy brace region for object extraction, the greedy bracket region for the
follow-up array — parses it, and on any failure returns a fixed built-in
default rather than raising; a caller-supplied default and the fenced-block
and ordered-fallback strategies do not exist.  Text consisting of the fenced
block ```json with `{"a":1}` still recovers the object, because the brace
region coincides with the fenced payload. -/
theorem recovery_single_strategy
    (modelText content documentType : String)
    (hobj : jsonRecover modelText = none)
    (harr : bracketRecover modelText = none) :
    jsonRecover "```json\n\x7b\"a\":1\x7d\n```" = some (Json.obj [("a", Json.num 1)]) ∧
    extractFromDocument modelText content documentType = defaultExtracted content ∧
    followUpFromText modelText = Json.arr [] := by
  refine ⟨rfl, ?_, ?_⟩
  · unfold extractFromDocument
    rw [hobj]
  · unfold followUpFromText
    rw [harr]

/-- Witness for the amended C4 at a concrete input: model text with no
JSON-like substring yields the built-in defaults, and the fenced example
recovers `{"a":1}`. -/
theorem recovery_single_strategy_witness :
    jsonRecover "```json\n\x7b\"a\":1\x7d\n```" = some (Json.obj [("a", Json.num 1)]) ∧
    extractFromDocument "no structured output here" "doc content" "text" =
      defaultExtracted "doc content" ∧
    followUpFromText "no structured output here" = Json.arr [] :=
  recovery_single_strategy "no structured output here" "doc content" "text" rfl rfl

/-! ## C5 — context size ceiling -/

/-- The prompt `query` sends is at least as long as the content of any single
relevant article: article contents are pasted into the prompt in full. -/
theorem queryPrompt_contains_article (ctx : CompanyContext) (q : String)
    (a : KnowledgeArticle) (h : ctx.relevantArticles = [a]) :
    a.content.length ≤ (queryPrompt ctx q).length := by
  unfold queryPrompt
  rw [h]
  simp [joinSep, String.length_append]
  omega

/-- A 10,001-character article content. -/
def bigContent : String := String.mk (List.replicate 10001 'a')

/-- An article whose content alone exceeds the 10,000-character ceiling —
e.g. a stored summary of that size coming back from the vector index. -/
def bigArticle : KnowledgeArticle :=
  { id := "big"
    title := "Big document"
    content := bigContent
    summary := "s"
    sourceType := "google_drive"
    sourceUrl := none
    category := "technical"
    tags := []
    status := "published"
    authorId := "system"
    lastUpdatedBy := "system"
    createdAtMs := 0
    updatedAtMs := 0
    viewCount := 0
    relatedArticleIds := []
    allowedDepartments := some ["general"] }

/-- C5 counterexample: with a single retrieved article of 10,001 characters,
the context blob handed to the generation model (the full prompt built from
the chat handler's context) exceeds 10,000 characters — only the
organizational-digest part of the context is truncated, not the prompt. -/
theorem context_blob_exceeds_ceiling :
    10000 < (queryPrompt (chatContext [] [] [bigArticle]) "q").length := by
  have h := queryPrompt_contains_article (chatContext [] [] [bigArticle]) "q"
    bigArticle rfl
  have hlen : bigArticle.content.length = 10001 := by
    show (List.replicate 10001 'a').length = 10001
    rw [List.length_replicate]
  omega

/-- C5 (amended): the 10,000-character ceiling applies to the organizational
snapshot only — the chat handler truncates the company description (base
description plus project/member digest) to 10,000 characters for every
input — while retrieved article contents and the question enter the prompt
unbounded. -/
theorem chat_description_bounded (projects : List Project) (ms : List Member)
    (articles : List KnowledgeArticle) :
    ((chatContext projects ms articles).companyInfo.description).length ≤ 10000 :=
  jsSubstring_length_le _ _

/-! ## C6 — handling of unsupported media types -/

/-- An upload-parser environment whose supported-type parsers all succeed. -/
def uploadEnvOk : UploadParserEnv :=
  { pdf := ParseOutcome.ok "parsed"
    csvText := ParseOutcome.ok "parsed"
    textFile := ParseOutcome.ok "parsed"
    jsonText := ParseOutcome.ok "parsed" }

/-- C6 counterexample: for a file with the unrecognized extension `.xyz`,
the upload-path extractor `DocumentParserService.parseFile` raises an
`Unsupported file type` error rather than returning a placeholder — so the
claim does not hold of every extraction operation. -/
theorem parseFile_throws_on_unsupported_type :
    parseFile uploadEnvOk "doc.xyz" =
      Except.error "Unsupported file type: .xyz" :=
  rfl

/-- C6 (amended): the Drive-sync extractor (`KnowledgeManager.processAndSave`)
returns the marked placeholder `[Content from <fileName>]` for every media
type outside its recognized set and never raises, so Drive batch ingestion
continues; the direct-upload parser (`DocumentParserService.parseFile`)
instead raises `Unsupported file type: <ext>` for every unrecognized
extension (its batch caller catches and skips the file). -/
theorem unsupported_media_type_handling
    (denv : DriveParserEnv) (uenv : UploadParserEnv)
    (fileName mimeType filePath : String)
    (h1 : mimeType ≠ drivePdfMime) (h2 : mimeType ≠ driveDocxMime)
    (h3 : mimeType ≠ driveXlsxMime) (h4 : mimeType ≠ drivePptxMime)
    (h5 : jsStartsWith mimeType "text/" = false)
    (h6 : jsToLower (extname filePath) ∉
      ([".pdf", ".csv", ".txt", ".md", ".json"] : List String)) :
    driveExtractText denv fileName mimeType = drivePlaceholder fileName ∧
    parseFile uenv filePath =
      Except.error ("Unsupported file type: " ++ jsToLower (extname filePath)) := by
  constructor
  · unfold driveExtractText
    simp [h1, h2, h3, h4, h5]
  · simp only [List.mem_cons, List.mem_singleton, not_or] at h6
    obtain ⟨g1, g2, g3, g4, g5⟩ := h6
    unfold parseFile
    simp [g1, g2, g3, g4, g5]

/-- A Drive-parser environment used as concrete witness input. -/
def driveEnvOk : DriveParserEnv :=
  { pdf := ParseOutcome.ok "parsed"
    mammoth := ParseOutcome.ok "parsed"
    xlsxText := ParseOutcome.ok "parsed"
    officeParse := ParseOutcome.ok "parsed"
    utf8 := "decoded" }

/-- Witness for the amended C6 at a concrete input: a zip archive gets the
placeholder on the Drive path, and an `.xyz` file raises on the upload path. -/
theorem unsupported_media_type_handling_witness :
    driveExtractText driveEnvOk "archive.zip" "application/zip" =
      drivePlaceholder "archive.zip" ∧
    parseFile uploadEnvOk "archive.xyz" =
      Except.error ("Unsupported file type: " ++ jsToLower (extname "archive.xyz")) :=
  unsupported_media_type_handling driveEnvOk uploadEnvOk "archive.zip"
    "application/zip" "archive.xyz" (by decide) (by decide) (by decide)
    (by decide) (by decide) (by decide)

end CompanyBrain
